import Mathlib

/- Shallow embedding of the message-aggregation and summarization pipeline of the
   Discord bot repository: src/config.py, src/utils/validators.py,
   src/services/analytics_service.py, src/services/message_service.py and
   src/services/ai_service.py.

   Conventions of the embedding:
   - instants (datetime values) are integers counting seconds;
   - pandas DataFrames of message records are lists of `MsgData` records;
   - Python string operations (split, rsplit, strip, lower, slicing) are
     re-implemented over `List Char` with Python semantics, restricted to
     ASCII whitespace, which is all the repository ever feeds them;
   - fallible operations return `Except`/`Option` values instead of raising. -/

namespace DiscordBot

/-- Bot setting MAX_MESSAGES_FOR_AI from src/config.py. -/
def MAX_MESSAGES_FOR_AI : Int := 200

/-- Bot setting MAX_DAYS_LOOKBACK from src/config.py. -/
def MAX_DAYS_LOOKBACK : Int := 7

/-- Bot setting MAX_HOURS_LOOKBACK from src/config.py (7 days in hours). -/
def MAX_HOURS_LOOKBACK : Int := 168

/-- Python str.strip on a character list: drop whitespace from both ends.
(Python also strips a few rarer whitespace code points; the repository only
ever strips spaces, tabs, carriage returns and newlines.) -/
def pyStrip (l : List Char) : List Char :=
  ((l.dropWhile Char.isWhitespace).reverse.dropWhile Char.isWhitespace).reverse

/-- Python str.strip on a string. -/
def stripStr (s : String) : String :=
  ⟨pyStrip s.data⟩

/-- Python s.lower().strip() (ASCII case folding, as used by the repository). -/
def pyLowerStrip (s : String) : String :=
  ⟨pyStrip (s.data.map Char.toLower)⟩

/-- Embeds normalize_time_unit from src/utils/validators.py. The Python
falsiness test `not unit` holds for a string argument exactly when it is
empty. -/
def normalize_time_unit (unit : String) : String :=
  if unit = "" then "days"
  else
    let normalized := pyLowerStrip unit
    if normalized = "hour" then "hours"
    else if normalized = "day" then "days"
    else normalized

/-- Embeds validate_timeframe from src/utils/validators.py. -/
def validate_timeframe (timeframe : Int) (unit : String) : Bool × String :=
  let u := normalize_time_unit unit
  if u = "days" then
    if timeframe < 1 ∨ timeframe > MAX_DAYS_LOOKBACK then
      (false, "Timeframe must be between 1 and " ++ toString MAX_DAYS_LOOKBACK ++ " days!")
    else (true, "")
  else if u = "hours" then
    if timeframe < 1 ∨ timeframe > MAX_HOURS_LOOKBACK then
      (false, "Timeframe must be between 1 and " ++ toString MAX_HOURS_LOOKBACK ++
        " hours (" ++ toString MAX_DAYS_LOOKBACK ++ " days)!")
    else (true, "")
  else (false, "Invalid time unit! Must be \x27hours\x27 or \x27days\x27.")

/-- Embeds calculate_time_window from src/utils/validators.py. The current
instant `datetime.now(timezone.utc)` is passed in as the parameter `now`;
`timedelta(days=n)` is `n * 86400` seconds, `timedelta(hours=n)` is
`n * 3600` seconds. -/
def calculate_time_window (now : Int) (timeframe : Int) (unit : String) : Int × String :=
  let u := normalize_time_unit unit
  if u = "days" then
    (now - timeframe * 86400,
      "past " ++ toString timeframe ++ " day" ++ (if timeframe > 1 then "s" else ""))
  else
    (now - timeframe * 3600,
      "past " ++ toString timeframe ++ " hour" ++ (if timeframe > 1 then "s" else ""))

/-- One normalized message record, the row shape handled by
src/services/analytics_service.py and src/services/message_service.py.
The guild-wide fetch path fills `channel_name` and omits `images`; the
single-channel extractor fills `images` and omits `channel_name`. -/
structure MsgData where
  user_id : Int
  user_name : String
  is_bot : Bool
  content : String
  timestamp : Int
  channel_name : Option String := none
  images : List String := []
  deriving DecidableEq

/-- One row of the user-count DataFrame produced by count_messages_by_user. -/
structure UserCount where
  user_id : Int
  user_name : String
  count : Nat
  deriving DecidableEq

/-- Embeds filter_user_messages_df from src/services/analytics_service.py. -/
def filter_user_messages_df (df : List MsgData) : List MsgData :=
  df.filter (fun r => !r.is_bot)

/-- Embeds get_user_message_count from src/services/analytics_service.py. -/
def get_user_message_count (df : List MsgData) (user_id : Int) : Nat :=
  (df.filter (fun r => decide (r.user_id = user_id))).length

/-- Embeds get_user_percentage from src/services/analytics_service.py. -/
def get_user_percentage (df : List MsgData) (user_id : Int) : ℚ :=
  let total_messages : Nat := df.length
  if total_messages = 0 then 0
  else ((get_user_message_count df user_id : ℚ) / (total_messages : ℚ)) * 100

/-- pandas DataFrame.head: the first n rows when n is nonnegative, all but
the trailing |n| rows when n is negative. -/
def pandasHead {α : Type} (l : List α) (n : Int) : List α :=
  if 0 ≤ n then l.take n.toNat else l.take (l.length - (-n).toNat)

/-- Embeds format_leaderboard from src/services/analytics_service.py.
`max_entries` is `int = None` in the source and is tested for truthiness,
so `none` and `some 0` both leave the counts untruncated. -/
def format_leaderboard (user_counts : List UserCount) (max_entries : Option Int) :
    List (Nat × String × Nat) :=
  let uc := match max_entries with
    | some m => if m ≠ 0 then pandasHead user_counts m else user_counts
    | none => user_counts
  uc.foldl (fun lb row => lb ++ [(lb.length + 1, row.user_name, row.count)]) []

/-- Python list slice l[-m:] for an integer m: the last m elements when
m is positive, l when m is zero (since -0 is 0), and l[(-m):] when m is
negative. -/
def pySliceLast {α : Type} (l : List α) (m : Int) : List α :=
  if m = 0 then l
  else if 0 < m then l.drop (l.length - m.toNat)
  else l.drop (-m).toNat

/-- The `formatted` list built by format_messages_for_ai in
src/services/message_service.py: one line per record whose content is a
non-empty (truthy) string, in input order. -/
def aiLines (messages : List MsgData) : List String :=
  (messages.filter (fun m => m.content != "")).map
    (fun m => m.user_name ++ ": " ++ m.content)

/-- Embeds format_messages_for_ai from src/services/message_service.py.
`max_messages` is `int = None` in the source; the truncation branch is
guarded by `if max_messages and len(formatted) > max_messages`. -/
def format_messages_for_ai (messages : List MsgData) (max_messages : Option Int) : String :=
  let formatted := aiLines messages
  match max_messages with
  | some m =>
    if m ≠ 0 ∧ m < (formatted.length : Int) then
      "[Showing last " ++ toString m ++ " messages]\n\n" ++
        String.intercalate "\n" (pySliceLast formatted m)
    else String.intercalate "\n" formatted
  | none => String.intercalate "\n" formatted

/-- Lexicographic order on character lists, as Python compares strings
(by code point). Used to embed how pandas sorts group keys. -/
def charListLe : List Char → List Char → Bool
  | [], _ => true
  | _ :: _, [] => false
  | a :: as, b :: bs =>
    if a < b then true else if b < a then false else charListLe as bs

/-- Order in which pandas `groupby(["user_id", "user_name"], sort=True)`
arranges group keys: ascending user_id, then ascending user_name. -/
def keyLE (a b : Int × String) : Prop :=
  a.1 < b.1 ∨ (a.1 = b.1 ∧ charListLe a.2.data b.2.data = true)

instance : DecidableRel keyLE := fun a b => by
  unfold keyLE
  infer_instance

/-- The comparison used by `sort_values("count", ascending=False)`:
rows with larger counts come first. -/
def countLE (a b : UserCount) : Prop :=
  b.count ≤ a.count

instance : DecidableRel countLE := fun a b => by
  unfold countLE
  infer_instance

/-- Distinct elements of a list keeping first occurrences, workhorse of
`firstDedup`. -/
def firstDedupGo : List (Int × String) → List (Int × String) → List (Int × String)
  | [], _ => []
  | k :: ks, seen => if k ∈ seen then firstDedupGo ks seen else k :: firstDedupGo ks (k :: seen)

/-- Distinct elements of a list, keeping the first occurrence of each, in
first-encountered order. -/
def firstDedup (l : List (Int × String)) : List (Int × String) :=
  firstDedupGo l []

/-- The grouping key of a message row: the (user_id, user_name) pair. -/
def rowKey (r : MsgData) : Int × String :=
  (r.user_id, r.user_name)

/-- Embeds count_messages_by_user from src/services/analytics_service.py:
`df.groupby(["user_id", "user_name"]).size().reset_index(name="count")`
arranges one row per distinct key in ascending key order (pandas groupby
defaults to sort=True), then `.sort_values("count", ascending=False)`
reorders the rows by descending count. pandas performs the descending sort
by reversing the rows, taking an ascending argsort and reversing the
resulting indexer, which keeps rows of equal count in their pre-sort order
whenever the underlying argsort kind is stable; the embedding uses a
stable insertion sort accordingly. -/
def count_messages_by_user (df : List MsgData) : List UserCount :=
  let keys := List.insertionSort keyLE (firstDedup (df.map rowKey))
  let user_counts := keys.map (fun k =>
    UserCount.mk k.1 k.2 (df.countP (fun r => decide (rowKey r = k))))
  List.insertionSort countLE user_counts

/-- Modelled from the claim wording of C1 (not from the source): group in
first-encountered key order, then sort by descending count keeping ties in
first-encountered order. Compared against `count_messages_by_user`. -/
def countByUserFirstEncounter (df : List MsgData) : List UserCount :=
  let keys := firstDedup (df.map rowKey)
  let user_counts := keys.map (fun k =>
    UserCount.mk k.1 k.2 (df.countP (fun r => decide (rowKey r = k))))
  List.insertionSort countLE user_counts

/-- discord.MessageType, reduced to the distinction the code makes. -/
inductive MsgType where
  | default
  | system
  deriving DecidableEq

/-- The two kinds of exception the fetch paths distinguish:
discord.Forbidden and any other exception. -/
inductive FetchError where
  | forbidden
  | other
  deriving DecidableEq

/-- A raw discord.Message as consumed by the fetch paths. -/
structure RawMessage where
  author_id : Int
  author_name : String
  author_bot : Bool
  content : String
  timestamp : Int
  type : MsgType
  deriving DecidableEq

/-- A discord.TextChannel together with the behaviour of its history()
call: `read_message_history` is the permission bit the guild sweep checks,
`msgs` are the messages the history iterator yields, and `err` is an
exception the iterator raises after yielding them (none if it completes).
A channel without the permission raises Forbidden from history() itself. -/
structure Channel where
  name : String
  read_message_history : Bool
  msgs : List RawMessage
  err : Option FetchError
  deriving DecidableEq

/-- Embeds fetch_messages_from_channel from src/services/message_service.py:
collect the history, and re-raise (propagate) discord.Forbidden as well as
any other exception to the caller. -/
def fetch_messages_from_channel (c : Channel) : Except FetchError (List RawMessage) :=
  if !c.read_message_history then Except.error FetchError.forbidden
  else match c.err with
    | some e => Except.error e
    | none => Except.ok c.msgs

/-- The record dictionary the guild sweep builds for one message
(note: it fills channel_name and has no images field). -/
def guildRecord (channelName : String) (m : RawMessage) : MsgData :=
  { user_id := m.author_id, user_name := m.author_name, is_bot := m.author_bot,
    content := m.content, timestamp := m.timestamp, channel_name := some channelName,
    images := [] }

/-- Embeds fetch_messages_from_guild from src/services/message_service.py:
for each text channel, skip it when the permission bit is missing; otherwise
collect its non-system messages; both discord.Forbidden and any other
exception from the channel are caught and the loop continues with the next
channel, keeping the messages already collected. -/
def fetch_messages_from_guild (text_channels : List Channel) : List MsgData :=
  text_channels.foldl
    (fun acc c =>
      if !c.read_message_history then acc
      else acc ++ (c.msgs.filter (fun m => decide (m.type = MsgType.default))).map
        (guildRecord c.name))
    []

/-- First occurrence split: `splitFirst sep t = some (b, a)` when
`t = b ++ sep ++ a` at the leftmost occurrence of `sep`, none when `sep`
does not occur in `t` (for non-empty `sep`). -/
def splitFirst (sep : List Char) : List Char → Option (List Char × List Char)
  | [] => none
  | c :: cs =>
    if sep.isPrefixOf (c :: cs) then some ([], (c :: cs).drop sep.length)
    else
      match splitFirst sep cs with
      | some (b, a) => some (c :: b, a)
      | none => none

/-- Python `text.split(sep)[1]`: the segment between the first occurrence
of `sep` and the following one (or the rest of the string when `sep`
occurs once); none when `sep` does not occur (Python raises there). -/
def pySplitOne (sep text : List Char) : Option (List Char) :=
  match splitFirst sep text with
  | none => none
  | some (_, a) =>
    match splitFirst sep a with
    | none => some a
    | some (b2, _) => some b2

/-- Python `text.rsplit(sep, 1)[0]`: everything before the rightmost
occurrence of `sep`, or the whole text when `sep` does not occur. -/
def pyRSplitBefore (sep text : List Char) : List Char :=
  match splitFirst sep.reverse text.reverse with
  | some (_, a) => a.reverse
  | none => text

/-- The plain code fence delimiter. -/
def sep3 : List Char := "```".data

/-- The json code fence opener. -/
def sepJson : List Char := "```json".data

/-- Embeds clean_json_response from src/services/ai_service.py. -/
def clean_json_response (text : String) : String :=
  let t := text.data
  let t1 := if sepJson.isPrefixOf t then (pySplitOne sepJson t).getD t else t
  let t2 := if sep3.isPrefixOf t1 then (pySplitOne sep3 t1).getD t1 else t1
  let t3 := if sep3.isSuffixOf t2 then pyRSplitBefore sep3 t2 else t2
  ⟨pyStrip t3⟩

/-- Embeds analyze_images from src/services/ai_service.py. The network is
abstracted per URL: entry `some resp` is the raw vision-model response for
an image whose download and analysis both succeeded, `none` marks an image
whose download or vision call raised. The source enumerates from 1 and
keeps only the first 5 URLs. -/
def analyze_images (results : List (Option String)) : String :=
  if results = [] then ""
  else
    let limited := results.take 5
    let descriptions := limited.enum.map (fun p =>
      match p.2 with
      | some resp => "Image " ++ toString (p.1 + 1) ++ ": " ++ stripStr resp
      | none => "Image " ++ toString (p.1 + 1) ++ ": [Could not analyze]")
    String.intercalate "\n" descriptions

/-! Helper lemmas shared by several claim theorems. -/

lemma validate_timeframe_days_eq (t : Int) (u : String)
    (hd : normalize_time_unit u = "days") :
    validate_timeframe t u =
      if t < 1 ∨ t > 7 then (false, "Timeframe must be between 1 and 7 days!")
      else (true, "") := by
  simp only [validate_timeframe, hd, MAX_DAYS_LOOKBACK]
  norm_num
  split_ifs <;> decide

lemma validate_timeframe_hours_eq (t : Int) (u : String)
    (hh : normalize_time_unit u = "hours") :
    validate_timeframe t u =
      if t < 1 ∨ t > 168 then (false, "Timeframe must be between 1 and 168 hours (7 days)!")
      else (true, "") := by
  simp only [validate_timeframe, hh, MAX_DAYS_LOOKBACK, MAX_HOURS_LOOKBACK]
  rw [if_neg (by decide : ¬ ("hours" : String) = "days")]
  norm_num
  split_ifs <;> decide

lemma validate_timeframe_invalid_eq (t : Int) (u : String)
    (h1 : normalize_time_unit u ≠ "days") (h2 : normalize_time_unit u ≠ "hours") :
    validate_timeframe t u =
      (false, "Invalid time unit! Must be \x27hours\x27 or \x27days\x27.") := by
  simp only [validate_timeframe, if_neg h1, if_neg h2]

lemma leaderboard_foldl_length (l : List UserCount) (acc : List (Nat × String × Nat)) :
    (l.foldl (fun lb row => lb ++ [(lb.length + 1, row.user_name, row.count)]) acc).length
      = acc.length + l.length := by
  induction l generalizing acc with
  | nil => simp
  | cons r rs ih =>
    rw [List.foldl_cons, ih]
    simp
    omega

lemma leaderboard_foldl_ranks (l : List UserCount) (acc : List (Nat × String × Nat)) :
    (l.foldl (fun lb row => lb ++ [(lb.length + 1, row.user_name, row.count)]) acc).map
        (fun e => e.1)
      = acc.map (fun e => e.1) ++ List.range' (acc.length + 1) l.length := by
  induction l generalizing acc with
  | nil => simp
  | cons r rs ih =>
    rw [List.foldl_cons, ih]
    simp [List.range'_succ, Nat.add_assoc]

/-! Claim theorems. -/

/-- Claim C3: get_user_percentage never raises; it returns exactly 0 on an
empty record set and 100 * count / total on a non-empty one. -/
theorem get_user_percentage_spec (df : List MsgData) (user_id : Int) :
    (df = [] → get_user_percentage df user_id = 0) ∧
    (df ≠ [] →
      get_user_percentage df user_id =
        100 * (get_user_message_count df user_id : ℚ) / (df.length : ℚ)) := by
  constructor
  · intro h
    subst h
    rfl
  · intro h
    have hl : df.length ≠ 0 := by simpa [List.length_eq_zero] using h
    have hq : (df.length : ℚ) ≠ 0 := by exact_mod_cast hl
    simp only [get_user_percentage, if_neg hl]
    field_simp
    ring

/-- Witness for C3 at the empty record set and at a concrete singleton. -/
theorem get_user_percentage_spec_witness :
    get_user_percentage [] 7 = 0 ∧
    get_user_percentage [⟨1, "A", false, "x", 0, none, []⟩] 1 =
      100 * (get_user_message_count [⟨1, "A", false, "x", 0, none, []⟩] 1 : ℚ) /
        (([⟨1, "A", false, "x", 0, none, []⟩] : List MsgData).length : ℚ) :=
  ⟨(get_user_percentage_spec [] 7).1 rfl,
   (get_user_percentage_spec [⟨1, "A", false, "x", 0, none, []⟩] 1).2 (by decide)⟩

/-- Claim C4: validate_timeframe accepts exactly the in-bounds inputs for
units normalizing to days (1..7) or hours (1..168), produces the
bound-naming failure messages otherwise, and rejects any other unit with
the invalid-unit message. -/
theorem validate_timeframe_spec (timeframe : Int) (unit : String) :
    (normalize_time_unit unit = "days" →
      ((validate_timeframe timeframe unit).1 = true ↔ 1 ≤ timeframe ∧ timeframe ≤ 7) ∧
      (¬ (1 ≤ timeframe ∧ timeframe ≤ 7) →
        validate_timeframe timeframe unit =
          (false, "Timeframe must be between 1 and 7 days!")) ∧
      (1 ≤ timeframe ∧ timeframe ≤ 7 → validate_timeframe timeframe unit = (true, ""))) ∧
    (normalize_time_unit unit = "hours" →
      ((validate_timeframe timeframe unit).1 = true ↔ 1 ≤ timeframe ∧ timeframe ≤ 168) ∧
      (¬ (1 ≤ timeframe ∧ timeframe ≤ 168) →
        validate_timeframe timeframe unit =
          (false, "Timeframe must be between 1 and 168 hours (7 days)!")) ∧
      (1 ≤ timeframe ∧ timeframe ≤ 168 → validate_timeframe timeframe unit = (true, ""))) ∧
    (normalize_time_unit unit ≠ "days" → normalize_time_unit unit ≠ "hours" →
      validate_timeframe timeframe unit =
        (false, "Invalid time unit! Must be \x27hours\x27 or \x27days\x27.")) := by
  refine ⟨fun hd => ?_, fun hh => ?_, fun h1 h2 => validate_timeframe_invalid_eq _ _ h1 h2⟩
  · rw [validate_timeframe_days_eq timeframe unit hd]
    constructor
    · split_ifs with h
      · constructor
        · intro hc
          exact absurd hc (by simp)
        · intro hc
          omega
      · simp
        omega
    constructor
    · intro hb
      rw [if_pos (by omega)]
    · intro hb
      rw [if_neg (by omega)]
  · rw [validate_timeframe_hours_eq timeframe unit hh]
    constructor
    · split_ifs with h
      · constructor
        · intro hc
          exact absurd hc (by simp)
        · intro hc
          omega
      · simp
        omega
    constructor
    · intro hb
      rw [if_pos (by omega)]
    · intro hb
      rw [if_neg (by omega)]

/-- Witness for C4 at concrete in- and out-of-bounds inputs. -/
theorem validate_timeframe_spec_witness :
    validate_timeframe 9 "days" = (false, "Timeframe must be between 1 and 7 days!") ∧
    validate_timeframe 100 "Hours" = (true, "") ∧
    validate_timeframe 3 "weeks" =
      (false, "Invalid time unit! Must be \x27hours\x27 or \x27days\x27.") :=
  ⟨((validate_timeframe_spec 9 "days").1 (by decide)).2.1 (by decide),
   ((validate_timeframe_spec 100 "Hours").2.1 (by decide)).2.2 (by decide),
   (validate_timeframe_spec 3 "weeks").2.2 (by decide) (by decide)⟩

/-- Claim C5: for a valid magnitude and a unit normalizing to days or
hours, calculate_time_window subtracts the corresponding duration from now
and describes the window as past-N-units with the singular form exactly
when the magnitude is 1. -/
theorem calculate_time_window_spec (now timeframe : Int) (unit : String)
    (h1 : 1 ≤ timeframe) :
    (normalize_time_unit unit = "days" →
      calculate_time_window now timeframe unit =
        (now - timeframe * 86400,
          "past " ++ toString timeframe ++ (if timeframe = 1 then " day" else " days"))) ∧
    (normalize_time_unit unit = "hours" →
      calculate_time_window now timeframe unit =
        (now - timeframe * 3600,
          "past " ++ toString timeframe ++ (if timeframe = 1 then " hour" else " hours"))) := by
  constructor
  · intro hd
    simp only [calculate_time_window, hd, eq_self_iff_true, if_true]
    split_ifs <;>
      first
        | omega
        | exact Prod.ext rfl (String.ext (by simp [String.data_append]))
  · intro hh
    simp only [calculate_time_window, hh]
    rw [if_neg (by decide : ¬ ("hours" : String) = "days")]
    split_ifs <;>
      first
        | omega
        | exact Prod.ext rfl (String.ext (by simp [String.data_append]))

/-- Witness for C5 at magnitude 1 (singular) and 3 (plural). -/
theorem calculate_time_window_spec_witness :
    calculate_time_window 1000000 1 "day" =
      (1000000 - 1 * 86400, "past " ++ toString (1 : Int) ++ " day") ∧
    calculate_time_window 1000000 3 "HOURS" =
      (1000000 - 3 * 3600, "past " ++ toString (3 : Int) ++ " hours") := by
  constructor
  · have h := (calculate_time_window_spec 1000000 1 "day" (by decide)).1 (by decide)
    simpa using h
  · have h := (calculate_time_window_spec 1000000 3 "HOURS" (by decide)).2 (by decide)
    simpa using h

/-- Counterexample to C9 as stated: the unrecognized token XYZ is not
returned unchanged by normalization (it is lowercased to xyz), though it
is still rejected by validation. -/
theorem normalize_time_unit_counterexample :
    normalize_time_unit "XYZ" = "xyz" ∧ normalize_time_unit "XYZ" ≠ "XYZ" ∧
    validate_timeframe 3 "XYZ" =
      (false, "Invalid time unit! Must be \x27hours\x27 or \x27days\x27.") := by
  decide

/-- Claim C9 (amended): a falsy (empty) unit normalizes to days, so
validate_timeframe treats an empty unit exactly like days and accepts
in-bounds magnitudes; any other unrecognized token is returned lowercased
and stripped but otherwise unchanged, and is then rejected by validation. -/
theorem normalize_time_unit_falsy_spec (t : Int) (u : String) :
    normalize_time_unit "" = "days" ∧
    validate_timeframe t "" = validate_timeframe t "days" ∧
    (1 ≤ t → t ≤ 7 → validate_timeframe t "" = (true, "")) ∧
    (u ≠ "" → pyLowerStrip u ≠ "hour" → pyLowerStrip u ≠ "day" →
      normalize_time_unit u = pyLowerStrip u) ∧
    (normalize_time_unit u ≠ "days" → normalize_time_unit u ≠ "hours" →
      validate_timeframe t u =
        (false, "Invalid time unit! Must be \x27hours\x27 or \x27days\x27.")) := by
  refine ⟨rfl, ?_, ?_, ?_, fun h1 h2 => validate_timeframe_invalid_eq t u h1 h2⟩
  · have h1 : normalize_time_unit "" = "days" := rfl
    have h2 : normalize_time_unit "days" = "days" := by decide
    simp only [validate_timeframe, h1, h2]
  · intro hl hu
    have h1 : normalize_time_unit "" = "days" := rfl
    simp only [validate_timeframe, h1, eq_self_iff_true, if_true]
    rw [if_neg (by simp only [MAX_DAYS_LOOKBACK]; omega)]
  · intro hne hh hd
    simp only [normalize_time_unit, if_neg hne]
    rw [if_neg hh, if_neg hd]

/-- Witness for C9 at the empty unit and a concrete unrecognized token. -/
theorem normalize_time_unit_falsy_spec_witness :
    validate_timeframe 3 "" = (true, "") ∧
    normalize_time_unit "Weeks " = pyLowerStrip "Weeks " := by
  constructor
  · exact (normalize_time_unit_falsy_spec 3 "x").2.2.1 (by decide) (by decide)
  · exact (normalize_time_unit_falsy_spec 3 "Weeks ").2.2.2.1 (by decide) (by decide) (by decide)

/-- Claim C6: with a positive limit, format_messages_for_ai keeps one line
per non-empty-content record in input order; when there are more lines
than the limit it emits the banner followed by exactly the last
max_messages lines, otherwise it emits all lines with no banner. -/
theorem format_messages_for_ai_spec (messages : List MsgData) (m : Int) (hm : 0 < m) :
    (m < ((aiLines messages).length : Int) →
      format_messages_for_ai messages (some m) =
        "[Showing last " ++ toString m ++ " messages]\n\n" ++
          String.intercalate "\n"
            ((aiLines messages).drop ((aiLines messages).length - m.toNat)) ∧
      ((aiLines messages).drop ((aiLines messages).length - m.toNat)).length = m.toNat) ∧
    (((aiLines messages).length : Int) ≤ m →
      format_messages_for_ai messages (some m) = String.intercalate "\n" (aiLines messages)) := by
  constructor
  · intro hlt
    constructor
    · simp only [format_messages_for_ai]
      rw [if_pos ⟨by omega, hlt⟩]
      simp only [pySliceLast, if_neg (by omega : ¬ m = 0), if_pos hm]
    · rw [List.length_drop]
      omega
  · intro hle
    simp only [format_messages_for_ai]
    rw [if_neg ?_]
    rintro ⟨h1, h2⟩
    omega

/-- Witness for C6: three text messages with limit 2, matching the spec
example. -/
theorem format_messages_for_ai_spec_witness :
    format_messages_for_ai
        [⟨1, "u1", false, "a", 0, none, []⟩, ⟨2, "u2", false, "b", 1, none, []⟩,
          ⟨3, "u3", false, "c", 2, none, []⟩] (some 2) =
      "[Showing last 2 messages]\n\nu2: b\nu3: c" := by
  have h := ((format_messages_for_ai_spec
    [⟨1, "u1", false, "a", 0, none, []⟩, ⟨2, "u2", false, "b", 1, none, []⟩,
      ⟨3, "u3", false, "c", 2, none, []⟩] 2 (by decide)).1 (by decide)).1
  rw [h]
  decide

/-- Claim C10: a limit of 0 is falsy in Python, hence treated as no limit:
format_leaderboard returns the full ranking 1..n and format_messages_for_ai
never truncates and adds no banner. -/
theorem limit_zero_is_no_limit (counts : List UserCount) (messages : List MsgData) :
    format_leaderboard counts (some 0) = format_leaderboard counts none ∧
    (format_leaderboard counts (some 0)).length = counts.length ∧
    (format_leaderboard counts (some 0)).map (fun e => e.1) = List.range' 1 counts.length ∧
    format_messages_for_ai messages (some 0) = format_messages_for_ai messages none := by
  have h0 : format_leaderboard counts (some 0) = format_leaderboard counts none := by
    simp [format_leaderboard]
  refine ⟨h0, ?_, ?_, ?_⟩
  · rw [h0]
    simpa [format_leaderboard] using leaderboard_foldl_length counts []
  · rw [h0]
    simpa [format_leaderboard] using leaderboard_foldl_ranks counts []
  · simp [format_messages_for_ai]


lemma fetch_guild_foldl_acc (cs : List Channel) (acc : List MsgData) :
    cs.foldl
      (fun acc c =>
        if !c.read_message_history then acc
        else acc ++ (c.msgs.filter (fun m => decide (m.type = MsgType.default))).map
          (guildRecord c.name))
      acc
    = acc ++ fetch_messages_from_guild cs := by
  induction cs generalizing acc with
  | nil => simp [fetch_messages_from_guild]
  | cons c cs ih =>
    rw [fetch_messages_from_guild, List.foldl_cons, List.foldl_cons, ih, ih]
    by_cases h : c.read_message_history
    · simp [h]
    · simp [h]

lemma fetch_guild_append (xs ys : List Channel) :
    fetch_messages_from_guild (xs ++ ys) =
      fetch_messages_from_guild xs ++ fetch_messages_from_guild ys := by
  rw [fetch_messages_from_guild, List.foldl_append, fetch_guild_foldl_acc,
    fetch_guild_foldl_acc, List.nil_append, fetch_messages_from_guild]

/-- Claim C2 (amended): in the guild-wide fetch every per-channel error,
permission-denied or otherwise, is non-fatal: the channel contributes only
the messages already yielded (nothing, when it fails at once or lacks the
permission) and iteration continues over the remaining channels; in the
single-channel fetch both permission-denied and any other error propagate
to the caller. -/
theorem fetch_error_handling_spec (pre post : List Channel) (c : Channel) (e : FetchError) :
    (c.read_message_history = false →
      fetch_messages_from_guild (pre ++ c :: post) = fetch_messages_from_guild (pre ++ post)) ∧
    (c.msgs = [] →
      fetch_messages_from_guild (pre ++ c :: post) = fetch_messages_from_guild (pre ++ post)) ∧
    (fetch_messages_from_guild (pre ++ { c with err := some e } :: post) =
      fetch_messages_from_guild (pre ++ { c with err := none } :: post)) ∧
    (c.read_message_history = true → c.err = some e →
      fetch_messages_from_channel c = Except.error e) ∧
    (c.read_message_history = false →
      fetch_messages_from_channel c = Except.error FetchError.forbidden) := by
  have hsplit : ∀ d : Channel, fetch_messages_from_guild (pre ++ d :: post) =
      fetch_messages_from_guild pre ++ fetch_messages_from_guild [d] ++
        fetch_messages_from_guild post := by
    intro d
    rw [show pre ++ d :: post = pre ++ [d] ++ post by simp, fetch_guild_append,
      fetch_guild_append]
  refine ⟨?_, ?_, ?_, ?_, ?_⟩
  · intro h
    rw [hsplit, fetch_guild_append]
    have : fetch_messages_from_guild [c] = [] := by
      simp [fetch_messages_from_guild, h]
    rw [this]
    simp
  · intro h
    rw [hsplit, fetch_guild_append]
    have : fetch_messages_from_guild [c] = [] := by
      simp [fetch_messages_from_guild, h]
    rw [this]
    simp
  · rw [hsplit, hsplit]
    rfl
  · intro h1 h2
    simp [fetch_messages_from_channel, h1, h2]
  · intro h1
    simp [fetch_messages_from_channel, h1]

/-- Counterexample to C2 as stated: a transport (non-permission) error on
a channel of the guild-wide fetch does not propagate as a fatal error for
that fetch call; the channel is skipped and iteration continues, while the
same channel makes the single-channel fetch fail. -/
theorem fetch_guild_error_counterexample :
    fetch_messages_from_guild
      [⟨"bad", true, [], some FetchError.other⟩,
       ⟨"good", true, [⟨1, "A", false, "hi", 0, MsgType.default⟩], none⟩] =
      [guildRecord "good" ⟨1, "A", false, "hi", 0, MsgType.default⟩] ∧
    fetch_messages_from_guild [⟨"bad", true, [], some FetchError.other⟩] = [] ∧
    fetch_messages_from_channel ⟨"bad", true, [], some FetchError.other⟩ =
      Except.error FetchError.other :=
  ⟨by decide, by decide, rfl⟩

/-- Witness for C2 with a concrete permission-less channel and a concrete
raising channel. -/
theorem fetch_error_handling_spec_witness :
    fetch_messages_from_guild
        ([] ++ Channel.mk "noperm" false [] none ::
          [⟨"good", true, [⟨1, "A", false, "hi", 0, MsgType.default⟩], none⟩]) =
      fetch_messages_from_guild
        ([] ++ [⟨"good", true, [⟨1, "A", false, "hi", 0, MsgType.default⟩], none⟩]) ∧
    fetch_messages_from_channel ⟨"raises", true, [], some FetchError.forbidden⟩ =
      Except.error FetchError.forbidden := by
  constructor
  · exact (fetch_error_handling_spec []
      [⟨"good", true, [⟨1, "A", false, "hi", 0, MsgType.default⟩], none⟩]
      (Channel.mk "noperm" false [] none) FetchError.other).1 rfl
  · exact (fetch_error_handling_spec [] []
      ⟨"raises", true, [], some FetchError.forbidden⟩ FetchError.forbidden).2.2.2.1 rfl rfl


/-- Claim C8: analyze_images processes at most the first 5 URLs in list
order, yields the placeholder line for an image whose download or vision
call fails while continuing with the rest, and returns the empty string on
an empty URL list. -/
theorem analyze_images_spec (results : List (Option String)) :
    (results = [] → analyze_images results = "") ∧
    ∃ ds : List String,
      analyze_images results = String.intercalate "\n" ds ∧
      ds.length = min 5 results.length ∧
      (∀ i : Nat, i < 5 → results[i]? = some none →
        ds[i]? = some ("Image " ++ toString (i + 1) ++ ": [Could not analyze]")) ∧
      (∀ (i : Nat) (r : String), i < 5 → results[i]? = some (some r) →
        ds[i]? = some ("Image " ++ toString (i + 1) ++ ": " ++ stripStr r)) := by
  by_cases hres : results = []
  · subst hres
    refine ⟨fun _ => rfl, [], rfl, rfl, ?_, ?_⟩
    · intro i _ hi
      simp at hi
    · intro i r _ hi
      simp at hi
  · refine ⟨fun h => absurd h hres, (results.take 5).enum.map (fun p =>
      match p.2 with
      | some resp => "Image " ++ toString (p.1 + 1) ++ ": " ++ stripStr resp
      | none => "Image " ++ toString (p.1 + 1) ++ ": [Could not analyze]"), ?_, ?_, ?_, ?_⟩
    · simp only [analyze_images, if_neg hres]
    · simp [List.length_take]
    · intro i hi5 hival
      rw [List.getElem?_map, List.getElem?_enum, List.getElem?_take]
      rw [if_pos hi5, hival]
      rfl
    · intro i r hi5 hival
      rw [List.getElem?_map, List.getElem?_enum, List.getElem?_take]
      rw [if_pos hi5, hival]
      rfl

/-- Witness for C8: six images, the second failing. -/
theorem analyze_images_spec_witness :
    analyze_images [] = "" ∧
    ∃ ds : List String,
      analyze_images [some " a ", none, some "b", none, none, some "zz"] =
        String.intercalate "\n" ds ∧
      ds.length = min 5 ([some " a ", none, some "b", none, none, some "zz"] :
        List (Option String)).length ∧
      ds[1]? = some ("Image " ++ toString (1 + 1) ++ ": [Could not analyze]") ∧
      ds[0]? = some ("Image " ++ toString (0 + 1) ++ ": " ++ stripStr " a ") := by
  obtain ⟨he, ds, h1, h2, h3, h4⟩ :=
    analyze_images_spec [some " a ", none, some "b", none, none, some "zz"]
  exact ⟨(analyze_images_spec []).1 rfl, ds, h1, h2,
    h3 1 (by omega) rfl, h4 0 " a " (by omega) rfl⟩


lemma splitFirst_eq_append {sep t b a : List Char}
    (h : splitFirst sep t = some (b, a)) : t = b ++ sep ++ a := by
  induction t generalizing b a with
  | nil => simp [splitFirst] at h
  | cons c cs ih =>
    rw [splitFirst] at h
    by_cases hp : sep.isPrefixOf (c :: cs)
    · rw [if_pos hp] at h
      obtain ⟨rest, hrest⟩ := (List.isPrefixOf_iff_prefix.mp hp)
      obtain ⟨hb, ha⟩ := Prod.mk.injEq .. ▸ (Option.some.injEq .. ▸ h)
      subst hb
      rw [← hrest] at ha ⊢
      rw [← ha]
      simp [List.drop_left]
    · rw [if_neg hp] at h
      cases hsf : splitFirst sep cs with
      | none => rw [hsf] at h; exact absurd h (by simp)
      | some p =>
        obtain ⟨b', a'⟩ := p
        rw [hsf] at h
        simp only [Option.some.injEq, Prod.mk.injEq] at h
        obtain ⟨hb, ha⟩ := h
        subst hb
        subst ha
        have := ih hsf
        simp [this]

lemma splitFirst_append_self {sep : List Char} (hs : sep ≠ []) (rest : List Char) :
    splitFirst sep (sep ++ rest) = some ([], rest) := by
  cases sep with
  | nil => exact absurd rfl hs
  | cons s ss =>
    rw [List.cons_append, splitFirst,
      if_pos (List.isPrefixOf_iff_prefix.mpr ⟨rest, by simp⟩)]
    simp only [Option.some.injEq, Prod.mk.injEq, true_and]
    rw [← List.cons_append, List.drop_left]

lemma prefix_through_newline {sep u v : List Char} (hn : ('\n') ∉ sep) :
    sep <+: (u ++ '\n' :: v) → sep <+: u := by
  induction sep generalizing u with
  | nil => intro _; exact List.nil_prefix
  | cons x xs ih =>
    intro h
    cases u with
    | nil =>
      rw [List.nil_append, List.cons_prefix_cons] at h
      exact absurd (h.1 ▸ List.mem_cons_self x xs) hn
    | cons a u2 =>
      rw [List.cons_append, List.cons_prefix_cons] at h
      exact List.cons_prefix_cons.mpr ⟨h.1, ih (fun hm => hn (List.mem_cons_of_mem x hm)) h.2⟩

lemma not_prefix_newline_sep3 (X : List Char) : ¬ sep3 <+: ('\n' :: X) := by
  intro h
  have := List.isPrefixOf_iff_prefix.mpr h
  rw [(rfl : sep3.isPrefixOf ('\n' :: X) = false)] at this
  exact Bool.false_ne_true this

lemma not_infix_cons_newline {s : List Char} (h : ¬ sep3 <:+: s) :
    ¬ sep3 <:+: ('\n' :: s) := by
  intro hi
  rcases List.infix_cons_iff.mp hi with hp | hi2
  · exact not_prefix_newline_sep3 s hp
  · exact h hi2

lemma splitFirst_closing_fence {s : List Char} (h : ¬ sep3 <:+: s) :
    splitFirst sep3 (s ++ '\n' :: sep3) = some (s ++ ['\n'], []) := by
  induction s with
  | nil => decide
  | cons c cs ih =>
    rw [List.cons_append, splitFirst]
    have hnp : ¬ sep3.isPrefixOf (c :: (cs ++ '\n' :: sep3)) = true := by
      intro hp
      have hpre := List.isPrefixOf_iff_prefix.mp hp
      rw [← List.cons_append] at hpre
      exact h (prefix_through_newline (by decide) hpre).isInfix
    rw [if_neg hnp]
    have hcs : ¬ sep3 <:+: cs := by
      intro hi
      exact h (hi.trans (List.suffix_cons c cs).isInfix)
    rw [ih hcs]
    rfl

lemma splitFirst_json_none {s : List Char} (h : ¬ sep3 <:+: s) :
    splitFirst sepJson (s ++ '\n' :: sep3) = none := by
  induction s with
  | nil => decide
  | cons c cs ih =>
    rw [List.cons_append, splitFirst]
    have hnp : ¬ sepJson.isPrefixOf (c :: (cs ++ '\n' :: sep3)) = true := by
      intro hp
      have hpre := List.isPrefixOf_iff_prefix.mp hp
      rw [← List.cons_append] at hpre
      have h3j : sep3 <+: sepJson := List.isPrefixOf_iff_prefix.mp (by decide)
      exact h (prefix_through_newline (by decide) (h3j.trans hpre)).isInfix
    rw [if_neg hnp]
    have hcs : ¬ sep3 <:+: cs := by
      intro hi
      exact h (hi.trans (List.suffix_cons c cs).isInfix)
    rw [ih hcs]

lemma pyRSplitBefore_append_fence (w : List Char) :
    pyRSplitBefore sep3 (w ++ sep3) = w := by
  rw [pyRSplitBefore, List.reverse_append,
    show sep3.reverse = sep3 from by decide,
    splitFirst_append_self (by decide) w.reverse]
  simp

lemma sep3_isSuffixOf_append_fence (w : List Char) : sep3.isSuffixOf (w ++ sep3) = true :=
  List.isSuffixOf_iff_suffix.mpr (List.suffix_append w sep3)

lemma sep3_isSuffixOf_newline (w : List Char) : sep3.isSuffixOf (w ++ ['\n']) = false := by
  show sep3.reverse.isPrefixOf (w ++ ['\n']).reverse = false
  rw [List.reverse_append, show sep3.reverse = sep3 from by decide]
  rfl

lemma pyStrip_cons_newline (x : List Char) : pyStrip ('\n' :: x) = pyStrip x := by
  rw [pyStrip, pyStrip, List.dropWhile_cons, if_pos (by decide : Char.isWhitespace '\n' = true)]

lemma pyStrip_append_newline (x : List Char) : pyStrip (x ++ ['\n']) = pyStrip x := by
  rw [pyStrip, pyStrip, List.dropWhile_append]
  by_cases he : (List.dropWhile Char.isWhitespace x).isEmpty
  · rw [if_pos he]
    have hx : List.dropWhile Char.isWhitespace x = [] := by
      simpa [List.isEmpty_iff] using he
    rw [hx]
    decide
  · rw [if_neg he]
    rw [List.reverse_append,
      show (['\n'] : List Char).reverse = ['\n'] from rfl,
      List.singleton_append, List.dropWhile_cons,
      if_pos (by decide : Char.isWhitespace '\n' = true)]

lemma not_infix_checks {s : List Char} (h : ¬ sep3 <:+: s) :
    sep3.isPrefixOf s = false ∧ sepJson.isPrefixOf s = false ∧ sep3.isSuffixOf s = false := by
  refine ⟨?_, ?_, ?_⟩
  · cases hb : sep3.isPrefixOf s with
    | false => rfl
    | true => exact absurd (List.isPrefixOf_iff_prefix.mp hb).isInfix h
  · cases hb : sepJson.isPrefixOf s with
    | false => rfl
    | true =>
      have h3j : sep3 <+: sepJson := List.isPrefixOf_iff_prefix.mp (by decide)
      exact absurd (h3j.trans (List.isPrefixOf_iff_prefix.mp hb)).isInfix h
  · cases hb : sep3.isSuffixOf s with
    | false => rfl
    | true => exact absurd (List.isSuffixOf_iff_suffix.mp hb).isInfix h

lemma clean_json_fenced {s : List Char} (h : ¬ sep3 <:+: s) :
    clean_json_response ⟨sepJson ++ '\n' :: (s ++ '\n' :: sep3)⟩ = ⟨pyStrip s⟩ := by
  have hns : ¬ sep3 <:+: ('\n' :: s) := not_infix_cons_newline h
  have hp1 : sepJson.isPrefixOf (sepJson ++ '\n' :: (s ++ '\n' :: sep3)) = true :=
    List.isPrefixOf_iff_prefix.mpr ⟨_, rfl⟩
  have hs1 : splitFirst sepJson (sepJson ++ '\n' :: (s ++ '\n' :: sep3)) =
      some ([], '\n' :: (s ++ '\n' :: sep3)) := splitFirst_append_self (by decide) _
  have hs2 : splitFirst sepJson ('\n' :: (s ++ '\n' :: sep3)) = none := by
    have := splitFirst_json_none hns
    rwa [List.cons_append] at this
  have hpf : sep3.isPrefixOf ('\n' :: (s ++ '\n' :: sep3)) = false := rfl
  have hrw : ('\n' : Char) :: (s ++ '\n' :: sep3) = ('\n' :: (s ++ ['\n'])) ++ sep3 := by
    simp
  simp only [clean_json_response, pySplitOne, hp1, hs1, hs2, Option.getD_some, if_true,
    hpf, Bool.false_eq_true, if_false]
  rw [hrw, if_pos (sep3_isSuffixOf_append_fence ('\n' :: (s ++ ['\n']))),
    pyRSplitBefore_append_fence, pyStrip_cons_newline, pyStrip_append_newline]

lemma clean_plain_fenced {s : List Char} (h : ¬ sep3 <:+: s) :
    clean_json_response ⟨sep3 ++ '\n' :: (s ++ '\n' :: sep3)⟩ = ⟨pyStrip s⟩ := by
  have hns : ¬ sep3 <:+: ('\n' :: s) := not_infix_cons_newline h
  have hpjf : sepJson.isPrefixOf (sep3 ++ '\n' :: (s ++ '\n' :: sep3)) = false := rfl
  have hp2 : sep3.isPrefixOf (sep3 ++ '\n' :: (s ++ '\n' :: sep3)) = true :=
    List.isPrefixOf_iff_prefix.mpr ⟨_, rfl⟩
  have hs1 : splitFirst sep3 (sep3 ++ '\n' :: (s ++ '\n' :: sep3)) =
      some ([], '\n' :: (s ++ '\n' :: sep3)) := splitFirst_append_self (by decide) _
  have hs2 : splitFirst sep3 ('\n' :: (s ++ '\n' :: sep3)) =
      some ('\n' :: (s ++ ['\n']), []) := by
    have := splitFirst_closing_fence hns
    rwa [List.cons_append] at this
  simp only [clean_json_response, pySplitOne, hpjf, Bool.false_eq_true, if_false, hp2,
    if_true, hs1, hs2, Option.getD_some]
  rw [show ('\n' : Char) :: (s ++ ['\n']) = ('\n' :: s) ++ ['\n'] from by simp,
    sep3_isSuffixOf_newline]
  simp only [Bool.false_eq_true, if_false]
  rw [show (('\n' : Char) :: s) ++ ['\n'] = '\n' :: (s ++ ['\n']) from by simp,
    pyStrip_cons_newline, pyStrip_append_newline]

lemma clean_body_only {s : List Char} (h : ¬ sep3 <:+: s) :
    clean_json_response ⟨s⟩ = ⟨pyStrip s⟩ := by
  obtain ⟨h1, h2, h3⟩ := not_infix_checks h
  simp only [clean_json_response, h1, h2, h3, Bool.false_eq_true, if_false]

/-- Claim C7: clean_json_response strips a single leading/trailing code
fence in both the json and plain variants, so for any body containing no
fence delimiter the fenced and unfenced inputs all clean to the body
stripped of surrounding whitespace. -/
theorem clean_json_response_spec (s : String) (h : ¬ sep3 <:+: s.data) :
    clean_json_response ("```json\n" ++ s ++ "\n```") = stripStr s ∧
    clean_json_response ("```\n" ++ s ++ "\n```") = stripStr s ∧
    clean_json_response s = stripStr s := by
  refine ⟨?_, ?_, ?_⟩
  · have e1 : ("```json\n" ++ s ++ "\n```") =
        ⟨sepJson ++ '\n' :: (s.data ++ '\n' :: sep3)⟩ := by
      apply String.ext
      rw [String.data_append, String.data_append,
        show ("```json\n").data = sepJson ++ ['\n'] from rfl,
        show ("\n```").data = '\n' :: sep3 from rfl]
      simp
    rw [e1]
    exact clean_json_fenced h
  · have e2 : ("```\n" ++ s ++ "\n```") =
        ⟨sep3 ++ '\n' :: (s.data ++ '\n' :: sep3)⟩ := by
      apply String.ext
      rw [String.data_append, String.data_append,
        show ("```\n").data = sep3 ++ ['\n'] from rfl,
        show ("\n```").data = '\n' :: sep3 from rfl]
      simp
    rw [e2]
    exact clean_plain_fenced h
  · have e3 : s = ⟨s.data⟩ := rfl
    rw [e3]
    exact clean_body_only h

/-- Witness for C7 at a concrete fence-free body. -/
theorem clean_json_response_spec_witness :
    clean_json_response "```json\nhello world\n```" = stripStr "hello world" ∧
    clean_json_response "```\nhello world\n```" = stripStr "hello world" ∧
    clean_json_response "hello world" = stripStr "hello world" := by
  have h := clean_json_response_spec "hello world" (by decide)
  refine ⟨?_, ?_, h.2.2⟩
  · have := h.1
    rwa [show ("```json\n" ++ "hello world" ++ "\n```") = "```json\nhello world\n```" from by decide]
      at this
  · have := h.2.1
    rwa [show ("```\n" ++ "hello world" ++ "\n```") = "```\nhello world\n```" from by decide]
      at this

lemma charListLe_total : ∀ a b : List Char, charListLe a b = true ∨ charListLe b a = true := by
  intro a
  induction a with
  | nil => intro b; left; rfl
  | cons x xs ih =>
    intro b
    cases b with
    | nil => right; rfl
    | cons y ys =>
      rcases lt_trichotomy x y with hlt | heq | hgt
      · left
        simp [charListLe, hlt]
      · subst heq
        rcases ih ys with h | h
        · left
          simp [charListLe, h]
        · right
          simp [charListLe, h]
      · right
        simp [charListLe, hgt]

lemma charListLe_trans : ∀ a b c : List Char,
    charListLe a b = true → charListLe b c = true → charListLe a c = true := by
  intro a
  induction a with
  | nil => intro b c _ _; rfl
  | cons x xs ih =>
    intro b c hab hbc
    cases b with
    | nil => simp [charListLe] at hab
    | cons y ys =>
      cases c with
      | nil => simp [charListLe] at hbc
      | cons z zs =>
        rw [charListLe] at hab hbc ⊢
        by_cases hxy : x < y
        · by_cases hyz : y < z
          · rw [if_pos (hxy.trans hyz)]
          · by_cases hzy : z < y
            · simp [if_neg hyz, if_pos hzy] at hbc
            · have hyzeq : y = z := le_antisymm (not_lt.mp hzy) (not_lt.mp hyz)
              subst hyzeq
              rw [if_pos hxy]
        · by_cases hyx : y < x
          · simp [if_neg hxy, if_pos hyx] at hab
          · have hxyeq : x = y := le_antisymm (not_lt.mp hyx) (not_lt.mp hxy)
            subst hxyeq
            by_cases hxz : x < z
            · rw [if_pos hxz]
            · by_cases hzx : z < x
              · simp [if_neg hxz, if_pos hzx] at hbc
              · have hxzeq : x = z := le_antisymm (not_lt.mp hzx) (not_lt.mp hxz)
                subst hxzeq
                simp only [lt_self_iff_false, if_false] at hab hbc ⊢
                exact ih ys zs hab hbc

instance : IsTotal (Int × String) keyLE := by
  constructor
  intro a b
  rcases lt_trichotomy a.1 b.1 with h | h | h
  · exact Or.inl (Or.inl h)
  · rcases charListLe_total a.2.data b.2.data with hc | hc
    · exact Or.inl (Or.inr ⟨h, hc⟩)
    · exact Or.inr (Or.inr ⟨h.symm, hc⟩)
  · exact Or.inr (Or.inl h)

instance : IsTrans (Int × String) keyLE := by
  constructor
  intro a b c hab hbc
  rcases hab with h1 | ⟨he1, hc1⟩
  · rcases hbc with h2 | ⟨he2, _⟩
    · exact Or.inl (h1.trans h2)
    · exact Or.inl (he2 ▸ h1)
  · rcases hbc with h2 | ⟨he2, hc2⟩
    · exact Or.inl (he1 ▸ h2)
    · exact Or.inr ⟨he1.trans he2, charListLe_trans _ _ _ hc1 hc2⟩

instance : IsTotal UserCount countLE := by
  constructor
  intro a b
  exact Nat.le_total b.count a.count

instance : IsTrans UserCount countLE := by
  constructor
  intro a b c hab hbc
  exact Nat.le_trans hbc hab

lemma firstDedupGo_mem (l : List (Int × String)) :
    ∀ (seen : List (Int × String)) (x : Int × String),
      x ∈ firstDedupGo l seen ↔ x ∈ l ∧ x ∉ seen := by
  induction l with
  | nil => intro seen x; simp [firstDedupGo]
  | cons k ks ih =>
    intro seen x
    rw [firstDedupGo]
    by_cases hk : k ∈ seen
    · rw [if_pos hk, ih]
      constructor
      · rintro ⟨hx, hs⟩
        exact ⟨List.mem_cons_of_mem k hx, hs⟩
      · rintro ⟨hx, hs⟩
        rcases List.mem_cons.mp hx with rfl | hx2
        · exact absurd hk hs
        · exact ⟨hx2, hs⟩
    · rw [if_neg hk]
      constructor
      · intro hx
        rcases List.mem_cons.mp hx with rfl | hx2
        · exact ⟨List.mem_cons_self x ks, hk⟩
        · obtain ⟨h1, h2⟩ := (ih (k :: seen) x).mp hx2
          exact ⟨List.mem_cons_of_mem k h1,
            fun hs => h2 (List.mem_cons_of_mem k hs)⟩
      · rintro ⟨hx, hs⟩
        rcases List.mem_cons.mp hx with rfl | hx2
        · exact List.mem_cons_self x _
        · by_cases hxk : x = k
          · subst hxk
            exact List.mem_cons_self x _
          · exact List.mem_cons_of_mem k ((ih (k :: seen) x).mpr
              ⟨hx2, fun hm => (List.mem_cons.mp hm).elim hxk hs⟩)

lemma firstDedupGo_nodup (l : List (Int × String)) :
    ∀ seen : List (Int × String), (firstDedupGo l seen).Nodup := by
  induction l with
  | nil => intro seen; simp [firstDedupGo]
  | cons k ks ih =>
    intro seen
    rw [firstDedupGo]
    by_cases hk : k ∈ seen
    · rw [if_pos hk]
      exact ih seen
    · rw [if_neg hk]
      refine List.nodup_cons.mpr ⟨?_, ih (k :: seen)⟩
      intro hmem
      exact ((firstDedupGo_mem ks (k :: seen) k).mp hmem).2 (List.mem_cons_self k seen)

lemma firstDedup_mem (l : List (Int × String)) (x : Int × String) :
    x ∈ firstDedup l ↔ x ∈ l := by
  rw [firstDedup, firstDedupGo_mem]
  simp

lemma firstDedup_nodup (l : List (Int × String)) : (firstDedup l).Nodup :=
  firstDedupGo_nodup l []

lemma pair_sublist_of_mem {α : Type} {a b : α} {l : List α}
    (ha : a ∈ l) (hb : b ∈ l) (hne : a ≠ b) :
    [a, b].Sublist l ∨ [b, a].Sublist l := by
  induction l with
  | nil => simp at ha
  | cons c cs ih =>
    rcases List.mem_cons.mp ha with rfl | ha2
    · have hb2 : b ∈ cs := by
        rcases List.mem_cons.mp hb with rfl | h
        · exact absurd rfl hne
        · exact h
      exact Or.inl (List.cons_sublist_cons.mpr (List.singleton_sublist.mpr hb2))
    · rcases List.mem_cons.mp hb with rfl | hb2
      · exact Or.inr (List.cons_sublist_cons.mpr (List.singleton_sublist.mpr ha2))
      · rcases ih ha2 hb2 with h | h
        · exact Or.inl (h.cons c)
        · exact Or.inr (h.cons c)

lemma pair_sublist_antisymm {α : Type} {a b : α} {l : List α}
    (hn : l.Nodup) (h1 : [a, b].Sublist l) (h2 : [b, a].Sublist l) : a = b := by
  induction l with
  | nil => simp at h1
  | cons c cs ih =>
    obtain ⟨hc, hcs⟩ := List.nodup_cons.mp hn
    cases h1 with
    | cons _ h1tail =>
      cases h2 with
      | cons _ h2tail => exact ih hcs h1tail h2tail
      | cons₂ h2tail =>
        have hb : b ∈ cs := h1tail.subset (by simp)
        exact absurd hb hc
    | cons₂ h1tail =>
      cases h2 with
      | cons _ h2tail =>
        have ha : a ∈ cs := h2tail.subset (by simp)
        exact absurd ha hc
      | cons₂ h2tail => rfl

/-- Counterexample to C1 as stated: with two users of equal count whose
first-encountered order (B then A) disagrees with ascending key order,
count_messages_by_user returns A before B, because pandas groupby sorts
the group keys before the stable descending count sort, while the claim
(modelled by countByUserFirstEncounter) predicts B before A. -/
theorem count_messages_by_user_counterexample :
    count_messages_by_user
        [⟨2, "B", false, "x", 0, none, []⟩, ⟨1, "A", false, "y", 1, none, []⟩] =
      [⟨1, "A", 1⟩, ⟨2, "B", 1⟩] ∧
    countByUserFirstEncounter
        [⟨2, "B", false, "x", 0, none, []⟩, ⟨1, "A", false, "y", 1, none, []⟩] =
      [⟨2, "B", 1⟩, ⟨1, "A", 1⟩] ∧
    count_messages_by_user
        [⟨2, "B", false, "x", 0, none, []⟩, ⟨1, "A", false, "y", 1, none, []⟩] ≠
      countByUserFirstEncounter
        [⟨2, "B", false, "x", 0, none, []⟩, ⟨1, "A", false, "y", 1, none, []⟩] :=
  ⟨by decide, by decide, by decide⟩

/-- Claim C1 (amended): count_messages_by_user returns one UserCount per
distinct (user_id, user_name) pair with the correct per-group count,
sorted in descending order of count; groups with equal counts appear in
ascending key order (the order pandas groupby with its default sort=True
leaves them in), not in first-encountered order. -/
theorem count_messages_by_user_spec (df : List MsgData) :
    ((count_messages_by_user df).map (fun u => (u.user_id, u.user_name))).Perm
      (firstDedup (df.map rowKey)) ∧
    (∀ u ∈ count_messages_by_user df,
      u.count = df.countP (fun r => decide (rowKey r = (u.user_id, u.user_name)))) ∧
    (count_messages_by_user df).Pairwise (fun a b =>
      b.count < a.count ∨
        (a.count = b.count ∧ keyLE (a.user_id, a.user_name) (b.user_id, b.user_name) ∧
          (a.user_id, a.user_name) ≠ (b.user_id, b.user_name))) := by
  classical
  set mk : (Int × String) → UserCount :=
    fun k => UserCount.mk k.1 k.2 (df.countP (fun r => decide (rowKey r = k))) with hmk
  set keys : List (Int × String) :=
    List.insertionSort keyLE (firstDedup (df.map rowKey)) with hkeys
  set grouped : List UserCount := keys.map mk with hgrouped
  have hout : count_messages_by_user df = List.insertionSort countLE grouped := rfl
  have hperm_out : (List.insertionSort countLE grouped).Perm grouped :=
    List.perm_insertionSort countLE grouped
  have hperm_keys : keys.Perm (firstDedup (df.map rowKey)) :=
    List.perm_insertionSort keyLE (firstDedup (df.map rowKey))
  have hmapkey : grouped.map (fun u => (u.user_id, u.user_name)) = keys := by
    rw [hgrouped, List.map_map]
    exact List.map_id keys
  have hkeys_nodup : keys.Nodup :=
    (hperm_keys.nodup_iff).mpr (firstDedup_nodup _)
  have hkeys_sorted : keys.Pairwise keyLE :=
    List.sorted_insertionSort keyLE (firstDedup (df.map rowKey))
  have hkeys_strict : keys.Pairwise (fun x y => keyLE x y ∧ x ≠ y) :=
    hkeys_sorted.and hkeys_nodup
  have hgrouped_strict : grouped.Pairwise (fun u v =>
      keyLE (u.user_id, u.user_name) (v.user_id, v.user_name) ∧
        (u.user_id, u.user_name) ≠ (v.user_id, v.user_name)) := by
    rw [hgrouped, List.pairwise_map]
    exact hkeys_strict
  have hgrouped_nodup : grouped.Nodup :=
    hgrouped_strict.imp (fun h => fun he => h.2 (he ▸ rfl))
  have hout_nodup : (List.insertionSort countLE grouped).Nodup :=
    (hperm_out.nodup_iff).mpr hgrouped_nodup
  have hout_sorted : (List.insertionSort countLE grouped).Pairwise countLE :=
    List.sorted_insertionSort countLE grouped
  have hcounts : ∀ u ∈ grouped,
      u.count = df.countP (fun r => decide (rowKey r = (u.user_id, u.user_name))) := by
    intro u hu
    rw [hgrouped] at hu
    obtain ⟨k, _, rfl⟩ := List.mem_map.mp hu
    rfl
  refine ⟨?_, ?_, ?_⟩
  · rw [hout]
    have h1 := hperm_out.map (fun u => (u.user_id, u.user_name))
    rw [hmapkey] at h1
    exact h1.trans hperm_keys
  · intro u hu
    rw [hout] at hu
    exact hcounts u (hperm_out.subset hu)
  · rw [hout]
    rw [List.pairwise_iff_forall_sublist]
    intro a b hsub
    have hab_le : countLE a b := List.pairwise_iff_forall_sublist.mp hout_sorted hsub
    have hne : a ≠ b := List.pairwise_iff_forall_sublist.mp hout_nodup hsub
    rcases Nat.lt_or_ge b.count a.count with hlt | hge
    · exact Or.inl hlt
    · have heq : a.count = b.count := Nat.le_antisymm hge hab_le
      right
      have hamem : a ∈ grouped := hperm_out.subset (hsub.subset (by simp))
      have hbmem : b ∈ grouped := hperm_out.subset (hsub.subset (by simp))
      rcases pair_sublist_of_mem hamem hbmem hne with hpair | hpair
      · have := List.pairwise_iff_forall_sublist.mp hgrouped_strict hpair
        exact ⟨heq, this.1, this.2⟩
      · exfalso
        have hpw : ([b, a] : List UserCount).Pairwise countLE := by
          refine List.pairwise_cons.mpr ⟨?_, List.pairwise_singleton _ _⟩
          intro x hx
          rw [List.mem_singleton.mp hx]
          exact Nat.le_of_eq heq
        have hsub2 : [b, a].Sublist (List.insertionSort countLE grouped) :=
          List.sublist_insertionSort hpw hpair
        exact hne (pair_sublist_antisymm hout_nodup hsub hsub2)

/-- Witness for C1 at a concrete two-row frame, reading off the count of
the first output group through the theorem. -/
theorem count_messages_by_user_spec_witness :
    (⟨1, "A", 1⟩ : UserCount).count =
      List.countP (fun r => decide (rowKey r = (((1 : Int), "A") : Int × String)))
        [⟨2, "B", false, "x", 0, none, []⟩, ⟨1, "A", false, "y", 1, none, []⟩] :=
  (count_messages_by_user_spec
      [⟨2, "B", false, "x", 0, none, []⟩, ⟨1, "A", false, "y", 1, none, []⟩]).2.1
    ⟨1, "A", 1⟩ (by decide)

end DiscordBot
